import Mathlib

/-!
Verification of @componentor/breakpoint, a micro-syntax parser and resolver
for conditional CSS style declarations.

The development embeds, as executable Lean definitions:
* the declaration parser `parse` and the resolution engine `getStyle`
  from `dist/index.js`;
* the alias resolver (`resolveProperty`, `toKebabCase`, `DEFAULT_ALIASES`)
  from `dist/aliases.js`;
* the merge utility (`normalizeAdapt`, `mergeAdapt`) from the helpers
  source (second part of `src/aliases.ts`).

JavaScript strings are modelled as Lean `String`, `undefined`/optional
values as `Option`, JS `Map`/plain objects (string-keyed, insertion
ordered) as association lists with insertion-order preserving update.
-/

namespace Breakpoint

/-- JS `String.prototype.split` with a single-character separator:
splitting an empty string yields `[""]`, and separators at the ends
produce empty pieces, exactly as in JavaScript. Auxiliary recursion. -/
def jsSplitAux (sep : Char) : List Char → List Char → List String
  | [], acc => [String.mk acc.reverse]
  | c :: cs, acc =>
    if c = sep then String.mk acc.reverse :: jsSplitAux sep cs []
    else jsSplitAux sep cs (c :: acc)

/-- JS `s.split(sep)` for a one-character separator. -/
def jsSplit (sep : Char) (s : String) : List String :=
  jsSplitAux sep s.data []

/-- Whitespace characters stripped by `String.prototype.trim`
(restricted to the ASCII whitespace occurring in the repository's data). -/
def isJsSpace (c : Char) : Bool :=
  c = ' ' || c = '\t' || c = '\n' || c = '\r'

/-- JS `s.trim()`. -/
def jsTrim (s : String) : String :=
  String.mk (((s.data.dropWhile isJsSpace).reverse.dropWhile isJsSpace).reverse)

/-- JS `Array.prototype.join` / `String.intercalate`. -/
def joinWith (sep : String) : List String → String
  | [] => ""
  | [s] => s
  | s :: rest => s ++ sep ++ joinWith sep rest

/-! ## Constants of `dist/index.js` -/

/-- `KNOWN_BREAKPOINTS` from `dist/index.js`. -/
def KNOWN_BREAKPOINTS : List String := ["xs", "sm", "md", "lg", "xl", "2xl"]

/-- `BREAKPOINT_ORDER` from `dist/index.js`. -/
def BREAKPOINT_ORDER : List (String × Nat) :=
  [("xs", 0), ("sm", 1), ("md", 2), ("lg", 3), ("xl", 4), ("2xl", 5)]

/-- `KNOWN_STATES` from `dist/index.js` (a pre-1.4.2 build: no `current`). -/
def KNOWN_STATES : List String :=
  ["hover", "active", "focus", "visited", "focus-visible", "focus-within",
   "disabled", "enabled", "checked"]

/-- `KNOWN_THEMES` from `dist/index.js`. -/
def KNOWN_THEMES : List String := ["dark", "light"]

/-- `KNOWN_CSS_PROPERTIES` from `dist/index.js`. -/
def KNOWN_CSS_PROPERTIES : List String :=
  ["margin", "margin-top", "margin-right", "margin-bottom", "margin-left",
   "padding", "padding-top", "padding-right", "padding-bottom", "padding-left",
   "border", "border-top", "border-right", "border-bottom", "border-left",
   "border-width", "border-style", "border-color", "border-radius",
   "width", "height", "min-width", "min-height", "max-width", "max-height",
   "display", "position", "top", "right", "bottom", "left",
   "flex", "flex-direction", "flex-wrap", "flex-grow", "flex-shrink", "flex-basis",
   "justify-content", "align-items", "align-content", "align-self",
   "grid", "grid-template", "grid-template-columns", "grid-template-rows", "grid-gap", "gap",
   "color", "background", "background-color", "background-image", "background-size", "background-position",
   "font", "font-family", "font-size", "font-weight", "font-style",
   "text", "text-align", "text-decoration", "text-transform",
   "line-height", "letter-spacing", "word-spacing",
   "opacity", "visibility", "z-index",
   "cursor", "pointer-events",
   "overflow", "overflow-x", "overflow-y",
   "transform", "transition", "animation",
   "box-shadow", "text-shadow"]

/-! ## Data model of `dist/index.js` -/

/-- `StyleConditions` (`dist/types.d.ts`): at most one theme, breakpoint
and state per declaration in this build. -/
structure StyleConditions where
  theme : Option String := none
  breakpoint : Option String := none
  state : Option String := none
deriving Repr, DecidableEq

/-- `ParsedStyle` (`dist/types.d.ts`). -/
structure ParsedStyle where
  property : String
  value : String
  conditions : StyleConditions
deriving Repr, DecidableEq

/-- `ParsedStyles` (`dist/types.d.ts`). -/
structure ParsedStyles where
  styles : List ParsedStyle
deriving Repr, DecidableEq

/-! ## The declaration parser of `dist/index.js` -/

/-- ASCII digit test (for the `\d` class of the breakpoint shape regex). -/
def isAsciiDigit (c : Char) : Bool := '0' ≤ c && c ≤ '9'

/-- The shape heuristic regex `/^\d+xl$|^[xsml]+$/` used by `parse` for
unrecognized condition tokens. -/
def bpPattern (s : String) : Bool :=
  (decide (3 ≤ s.data.length) &&
    (s.data.take (s.data.length - 2)).all isAsciiDigit &&
    decide (s.data.drop (s.data.length - 2) = ['x', 'l'])) ||
  (decide (s.data ≠ []) && s.data.all (fun c => c ∈ ['x', 's', 'm', 'l']))

/-- One step of the condition-classification loop of `parse`
(`dist/index.js` lines 104-128): categorize one condition token and
store it into its slot of the condition set (overwriting that slot). -/
def categorize (c : StyleConditions) (condition : String) : StyleConditions :=
  if KNOWN_BREAKPOINTS.contains condition then { c with breakpoint := some condition }
  else if KNOWN_STATES.contains condition then { c with state := some condition }
  else if KNOWN_THEMES.contains condition then { c with theme := some condition }
  else if bpPattern condition then { c with breakpoint := some condition }
  else { c with theme := some condition }

/-- The multi-word property scan of `parse` (`dist/index.js` lines 83-94):
for `i` descending from `parts.length - 3`, join `parts[i..parts.length-2]`
with `-` and test membership in the known-property set; the first success
yields the joined property and the split index. -/
def multiWordScan (parts : List String) : Nat → Option (String × Nat)
  | 0 =>
    let joined := joinWith "-" (parts.take (parts.length - 1))
    if KNOWN_CSS_PROPERTIES.contains joined then some (joined, 0) else none
  | i + 1 =>
    let joined := joinWith "-" ((parts.drop (i + 1)).take (parts.length - 1 - (i + 1)))
    if KNOWN_CSS_PROPERTIES.contains joined then some (joined, i + 1)
    else multiWordScan parts i

/-- The property/condition boundary detection of `parse`
(`dist/index.js` lines 61-101): first try the second-to-last part as a
known property, then the multi-word scan, then fall back
unconditionally. Returns the identified property together with the
condition parts preceding it (the last part is always the value). -/
def boundary (parts : List String) : String × List String :=
  if KNOWN_CSS_PROPERTIES.contains (parts.getD (parts.length - 2) "") then
    (parts.getD (parts.length - 2) "", parts.take (parts.length - 2))
  else if 3 ≤ parts.length then
    match multiWordScan parts (parts.length - 3) with
    | some (joined, i) => (joined, parts.take i)
    | none => (parts.getD (parts.length - 2) "", parts.take (parts.length - 2))
  else (parts.getD (parts.length - 2) "", parts.take (parts.length - 2))

/-- Processing of one (already trimmed, nonempty) declaration segment of
`parse`, given its colon-split, trimmed parts (`dist/index.js` lines
56-134). Returns `none` for the segments the loop `continue`s over:
fewer than two parts, or an empty identified property or value. -/
def parseSegment (parts : List String) : Option ParsedStyle :=
  if parts.length < 2 then none
  else if (boundary parts).1 = "" || parts.getD (parts.length - 1) "" = "" then none
  else some { property := (boundary parts).1,
              value := parts.getD (parts.length - 1) "",
              conditions := (boundary parts).2.foldl categorize {} }

/-- `parse` from `dist/index.js` (lines 49-136): split the input on `;`,
trim and drop empty segments, then split each segment on `:` (trimming
each part) and process it with `parseSegment`. -/
def parse (input : String) : ParsedStyles :=
  if input = "" then { styles := [] }
  else
    { styles :=
        (((jsSplit ';' input).map jsTrim).filter (fun s => s ≠ "")).filterMap
          (fun declaration => parseSegment ((jsSplit ':' declaration).map jsTrim)) }

/-- `parse` applied to a JS `string | null | undefined` argument: the
guard `!input || typeof input !== 'string'` maps `null`/`undefined`
(modelled as `none`) to the empty result. -/
def parseOpt : Option String → ParsedStyles
  | none => { styles := [] }
  | some s => parse s

/-! ## The resolution engine of `dist/index.js` -/

/-- `BreakpointStrategy` (`dist/types.d.ts`): `'exact' | 'mobile-first'
| 'desktop-first'`. -/
inductive BreakpointStrategy where
  | exact
  | mobileFirst
  | desktopFirst
deriving Repr, DecidableEq

/-- `ThemeStrategy` (`dist/types.d.ts`): `'strict' | 'fallback'`. -/
inductive ThemeStrategy where
  | strict
  | fallback
deriving Repr, DecidableEq

/-- `GetStyleOptions` (`dist/types.d.ts`), with the defaults destructured
at the top of `getStyle`. -/
structure GetStyleOptions where
  theme : Option String := none
  state : Option String := none
  breakpoint : Option String := none
  breakpointStrategy : BreakpointStrategy := .exact
  themeStrategy : ThemeStrategy := .strict
deriving Repr, DecidableEq

/-- `hasExactThemeMatch` (`dist/index.js` lines 183-186): some
declaration of the set has the same property, exactly the requested
theme, and the same breakpoint and state conditions as `style`. -/
def hasExactThemeMatch (all : List ParsedStyle) (style : ParsedStyle)
    (o : GetStyleOptions) : Bool :=
  all.any fun s =>
    s.property == style.property &&
    s.conditions.theme == o.theme &&
    s.conditions.breakpoint == style.conditions.breakpoint &&
    s.conditions.state == style.conditions.state

/-- `hasBaseAtSameLevel` (`dist/index.js` lines 196-199): a themeless
declaration with the same property, breakpoint and state conditions. -/
def hasBaseAtSameLevel (all : List ParsedStyle) (style : ParsedStyle) : Bool :=
  all.any fun s =>
    s.property == style.property &&
    s.conditions.theme == none &&
    s.conditions.breakpoint == style.conditions.breakpoint &&
    s.conditions.state == style.conditions.state

/-- `hasAnyBase` (`dist/index.js` lines 207-209): a themeless declaration
with the same property and state conditions (any breakpoint). -/
def hasAnyBase (all : List ParsedStyle) (style : ParsedStyle) : Bool :=
  all.any fun s =>
    s.property == style.property &&
    s.conditions.theme == none &&
    s.conditions.state == style.conditions.state

/-- The `skipFallback` computation of `getStyle` (`dist/index.js` lines
187-213), used on a themed declaration whose theme differs from the
requested theme under the `fallback` strategy. -/
def skipFallback (all : List ParsedStyle) (style : ParsedStyle)
    (o : GetStyleOptions) : Bool :=
  if hasExactThemeMatch all style o then true
  else if o.state.isSome && style.conditions.state.isNone then
    hasBaseAtSameLevel all style
  else if o.breakpoint.isSome && style.conditions.breakpoint.isNone then
    hasAnyBase all style
  else false

/-- The theme section of `getStyle`'s matching loop (`dist/index.js`
lines 169-224): `true` iff this section does not set `matches = false`. -/
def themeSectionOk (all : List ParsedStyle) (style : ParsedStyle)
    (o : GetStyleOptions) : Bool :=
  match style.conditions.theme with
  | none => true
  | some t =>
    match o.themeStrategy with
    | .strict => o.theme == some t
    | .fallback =>
      match o.theme with
      | some reqT => if t ≠ reqT then !(skipFallback all style o) else true
      | none => false

/-- The state section of `getStyle`'s matching loop (`dist/index.js`
lines 225-228): a declaration with a state condition requires the
requested state to equal it. -/
def stateSectionOk (cs os : Option String) : Bool :=
  match cs with
  | none => true
  | some s => os == some s

/-- The breakpoint section of `getStyle`'s matching loop
(`dist/index.js` lines 161-164 and 229-263), as a function of the
declaration's breakpoint, the requested breakpoint and the strategy. -/
def bpSectionOk (cbp rbp : Option String) (strat : BreakpointStrategy) : Bool :=
  match cbp, rbp with
  | some sb, some rb =>
    match BREAKPOINT_ORDER.lookup sb, BREAKPOINT_ORDER.lookup rb with
    | some si, some ri =>
      match strat with
      | .exact => sb == rb
      | .mobileFirst => decide (si ≤ ri)
      | .desktopFirst => decide (ri ≤ si)
    | _, _ => sb == rb
  | some _, none => false
  | none, _ => true

/-- `hasConditions` (`dist/index.js` lines 265-267). -/
def hasConditions (c : StyleConditions) : Bool :=
  c.theme.isSome || c.state.isSome || c.breakpoint.isSome

/-- The complete per-declaration `matches` flag of `getStyle`'s loop
(`dist/index.js` lines 165-277): every section may only clear the flag,
and a declaration with no conditions is forced to match at the end. -/
def styleMatches (all : List ParsedStyle) (style : ParsedStyle)
    (o : GetStyleOptions) : Bool :=
  if hasConditions style.conditions then
    themeSectionOk all style o &&
    stateSectionOk style.conditions.state o.state &&
    bpSectionOk style.conditions.breakpoint o.breakpoint o.breakpointStrategy
  else true

/-- JS `Map.prototype.set` on an insertion-ordered association list:
an existing key keeps its position and gets the new value, a new key is
appended. -/
def jsMapSet (m : List (String × String)) (k v : String) :
    List (String × String) :=
  if m.any (fun p => p.1 == k) then
    m.map (fun p => if p.1 == k then (k, v) else p)
  else m ++ [(k, v)]

/-- The `propertyMap` construction of `getStyle` (`dist/index.js` lines
281-284): later entries for the same property overwrite earlier ones. -/
def buildPropertyMap (ms : List (String × String)) : List (String × String) :=
  ms.foldl (fun m pv => jsMapSet m pv.1 pv.2) []

/-- The `matchingStyles` array accumulated by `getStyle`'s loop
(`dist/index.js` lines 160, 272-277): the property/value pairs of the
matched declarations in original parse order. -/
def matchingStyles (ps : ParsedStyles) (o : GetStyleOptions) :
    List (String × String) :=
  (ps.styles.filter (fun st => styleMatches ps.styles st o)).map
    (fun s => (s.property, s.value))

/-- `getStyle` from `dist/index.js` (lines 158-289). -/
def getStyle (ps : ParsedStyles) (o : GetStyleOptions := {}) : String :=
  joinWith " " ((buildPropertyMap (matchingStyles ps o)).map
    (fun pv => pv.1 ++ ": " ++ pv.2 ++ ";"))

end Breakpoint

namespace Breakpoint

/-! Regression checks of the resolution embedding against the
repository's unit tests (`index.test.ts`, `theme-strategy.test.ts`,
`BREAKPOINT_STRATEGIES.md`). -/

example : getStyle (parse "color:red; dark:color:white") { theme := some "dark" } =
    "color: white;" := by decide

example : getStyle (parse "color:black; dark:color:white; light:color:gray")
    { theme := some "light" } = "color: gray;" := by decide

example : getStyle (parse "color:blue; dark:color:white")
    { theme := some "light", themeStrategy := .strict } = "color: blue;" := by decide

example : getStyle (parse "background:gray; dark:background:black")
    { theme := some "light", themeStrategy := .fallback } = "background: black;" := by
  decide

example : getStyle (parse "color:blue; dark:color:white; light:color:black")
    { theme := some "light", themeStrategy := .fallback } = "color: black;" := by decide

example : getStyle
    (parse "font-size:14px; sm:font-size:16px; md:font-size:18px; lg:font-size:20px")
    { breakpoint := some "md" } = "font-size: 18px;" := by decide

example : getStyle
    (parse "font-size:14px; sm:font-size:16px; md:font-size:18px; lg:font-size:20px")
    { breakpoint := some "md", breakpointStrategy := .mobileFirst } =
    "font-size: 18px;" := by decide

example : getStyle
    (parse "font-size:14px; sm:font-size:16px; md:font-size:18px; lg:font-size:20px")
    { breakpoint := some "md", breakpointStrategy := .desktopFirst } =
    "font-size: 20px;" := by decide

example : getStyle (parse "font-size:14px; 3xl:font-size:18px")
    { breakpoint := some "3xl", breakpointStrategy := .mobileFirst } =
    "font-size: 18px;" := by decide

example : getStyle (parse "font-size:14px; 3xl:font-size:18px")
    { breakpoint := some "md", breakpointStrategy := .mobileFirst } =
    "font-size: 14px;" := by decide

example : getStyle
    (parse "opacity:1; hover:opacity:0.8; dark:opacity:0.9; dark:hover:opacity:0.7")
    { theme := some "dark", state := some "hover", themeStrategy := .strict } =
    "opacity: 0.7;" := by decide

/-! ## The alias resolver of `dist/aliases.js` -/

/-- `toKebabCase` from `dist/aliases.js`: insert a `-` before every
ASCII uppercase letter, lowercase everything, and strip one leading `-`;
a string without uppercase letters passes through unchanged. -/
def toKebabCase (s : String) : String :=
  if String.mk (s.data.map Char.toLower) == s && !(s.data.any Char.isUpper) then s
  else
    let replaced := (s.data.map (fun c =>
      if c.isUpper then ['-', c] else [c])).flatten.map Char.toLower
    String.mk (match replaced with
      | '-' :: rest => rest
      | l => l)

/-- `DEFAULT_ALIASES` from `dist/aliases.js` (the built-in alias layer). -/
def DEFAULT_ALIASES : List (String × String) :=
  [("bg", "background"), ("bg-color", "background-color"),
   ("bg-image", "background-image"), ("bg-size", "background-size"),
   ("bg-position", "background-position"), ("bg-repeat", "background-repeat"),
   ("bg-attachment", "background-attachment"), ("bg-clip", "background-clip"),
   ("bg-origin", "background-origin"),
   ("text", "color"), ("op", "opacity"),
   ("w", "width"), ("h", "height"),
   ("min-w", "min-width"), ("max-w", "max-width"),
   ("min-h", "min-height"), ("max-h", "max-height"),
   ("m", "margin"), ("mt", "margin-top"), ("mr", "margin-right"),
   ("mb", "margin-bottom"), ("ml", "margin-left"),
   ("mx", "margin-inline"), ("my", "margin-block"),
   ("ms", "margin-inline-start"), ("me", "margin-inline-end"),
   ("p", "padding"), ("pt", "padding-top"), ("pr", "padding-right"),
   ("pb", "padding-bottom"), ("pl", "padding-left"),
   ("px", "padding-inline"), ("py", "padding-block"),
   ("ps", "padding-inline-start"), ("pe", "padding-inline-end"),
   ("space-x", "column-gap"), ("space-y", "row-gap"),
   ("border-w", "border-width"), ("border-t", "border-top"),
   ("border-r", "border-right"), ("border-b", "border-bottom"),
   ("border-l", "border-left"),
   ("border-t-color", "border-top-color"), ("border-b-color", "border-bottom-color"),
   ("border-l-color", "border-left-color"), ("border-r-color", "border-right-color"),
   ("border-t-style", "border-top-style"), ("border-b-style", "border-bottom-style"),
   ("border-l-style", "border-left-style"), ("border-r-style", "border-right-style"),
   ("border-t-w", "border-top-width"), ("border-b-w", "border-bottom-width"),
   ("border-l-w", "border-left-width"), ("border-r-w", "border-right-width"),
   ("rounded", "border-radius"), ("rounded-tl", "border-top-left-radius"),
   ("rounded-tr", "border-top-right-radius"), ("rounded-bl", "border-bottom-left-radius"),
   ("rounded-br", "border-bottom-right-radius"),
   ("z", "z-index"),
   ("justify", "justify-content"), ("items", "align-items"),
   ("align", "align-self"), ("grow", "flex-grow"),
   ("shrink", "flex-shrink"), ("basis", "flex-basis"),
   ("grid-cols", "grid-template-columns"), ("grid-rows", "grid-template-rows"),
   ("col", "grid-column"), ("col-start", "grid-column-start"),
   ("col-end", "grid-column-end"), ("row", "grid-row"),
   ("row-start", "grid-row-start"), ("row-end", "grid-row-end"),
   ("gap-x", "column-gap"), ("gap-y", "row-gap"),
   ("shadow", "box-shadow"), ("mix-blend", "mix-blend-mode"),
   ("bg-blend", "background-blend-mode"),
   ("origin", "transform-origin"),
   ("duration", "transition-duration"), ("delay", "transition-delay"),
   ("animate", "animation"),
   ("overscroll", "overscroll-behavior"), ("overscroll-x", "overscroll-behavior-x"),
   ("overscroll-y", "overscroll-behavior-y"),
   ("outline-w", "outline-width"),
   ("aspect", "aspect-ratio"), ("object", "object-fit"),
   ("list", "list-style-type"),
   ("break", "word-break"), ("break-words", "overflow-wrap"),
   ("whitespace", "white-space"),
   ("stroke-w", "stroke-width"),
   ("size", "font-size"), ("fw", "font-weight")]

/-- Truthy lookup in a string-keyed JS object: `obj[k]` used as a
condition is `false` for a missing key and for an empty-string value. -/
def lookupTruthy (m : List (String × String)) (k : String) : Option String :=
  match m.lookup k with
  | some v => if v = "" then none else some v
  | none => none

/-- `registerAlias` from `dist/aliases.js`: `customAliases[alias] =
property`, modelled as explicit state passing of the custom alias
table (a string-keyed insertion-ordered object). -/
def registerAlias (custom : List (String × String)) (a property : String) :
    List (String × String) :=
  jsMapSet custom a property

/-- `clearCustomAliases` from `dist/aliases.js`. -/
def clearCustomAliases : List (String × String) := []

/-- `resolveProperty` from `dist/aliases.js`: custom aliases first,
then built-in aliases, then kebab-case conversion. -/
def resolveProperty (custom : List (String × String)) (property : String) :
    String :=
  match lookupTruthy custom property with
  | some v => v
  | none =>
    match lookupTruthy DEFAULT_ALIASES property with
    | some v => v
    | none => toKebabCase property

/-! ## The merge utility (`normalizeAdapt` / `mergeAdapt` from the
helpers source, second part of `src/aliases.ts`) -/

/-- One element of a JS array argument of `mergeAdapt`:
`string | object`. -/
inductive AdaptItem where
  | str (s : String)
  | obj (entries : List (String × String))
deriving Repr, DecidableEq

/-- One argument of `mergeAdapt`: `string | object | any[] | null |
undefined` (with `null`/`undefined` collapsed to `.null`). -/
inductive AdaptInput where
  | null
  | str (s : String)
  | obj (entries : List (String × String))
  | arr (items : List AdaptItem)
deriving Repr, DecidableEq

/-- `Object.entries(x).map(([k,v]) => k+":"+v).join('; ')`. -/
def entriesToString (es : List (String × String)) : String :=
  joinWith "; " (es.map (fun kv => kv.1 ++ ":" ++ kv.2))

/-- Normalization of one array item inside `normalizeAdapt`. -/
def normalizeItem : AdaptItem → String
  | .str s => s
  | .obj es => entriesToString es

/-- `normalizeAdapt` from the helpers source: `null`, `undefined` and
`""` normalize to `""`; other strings pass through; objects and arrays
are stringified with `'; '` separators. -/
def normalizeAdapt : AdaptInput → String
  | .null => ""
  | .str s => s
  | .obj es => entriesToString es
  | .arr items => joinWith "; " (items.map normalizeItem)

/-- Split a piece at its LAST colon (`trimmed.lastIndexOf(':')`),
returning the raw key (everything before) and raw value (everything
after); `none` when the piece has no colon. -/
def splitAtLastColon (s : String) : Option (String × String) :=
  if s.data.contains ':' then
    some (String.mk ((s.data.reverse.drop
            ((s.data.reverse.takeWhile (fun c => c ≠ ':')).length + 1)).reverse),
          String.mk (s.data.reverse.takeWhile (fun c => c ≠ ':')).reverse)
  else none

/-- Processing of one `;`-separated piece inside `mergeAdapt`'s loop:
trim, drop empty pieces, split at the last colon, trim key and value,
and drop entries with an empty key. -/
def entryOfPiece (prop : String) : Option (String × String) :=
  let trimmed := jsTrim prop
  if trimmed = "" then none
  else
    match splitAtLastColon trimmed with
    | none => none
    | some kv =>
      let key := jsTrim kv.1
      if key = "" then none else some (key, jsTrim kv.2)

/-- The entries contributed by one normalized input of `mergeAdapt`,
in piece order. -/
def entriesOfInput (normalized : String) : List (String × String) :=
  (jsSplit ';' normalized).filterMap entryOfPiece

/-- Store a list of entries into the `styleMap` object, in order
(later entries with the same key overwrite). -/
def setEntries (m : List (String × String)) (es : List (String × String)) :
    List (String × String) :=
  es.foldl (fun acc kv => jsMapSet acc kv.1 kv.2) m

/-- The `styleMap` built by `mergeAdapt`: inputs processed
right-to-left, empty normalizations skipped. -/
def mergeMapOf (adapts : List AdaptInput) : List (String × String) :=
  adapts.reverse.foldl (fun m a =>
    let normalized := normalizeAdapt a
    if normalized = "" then m
    else setEntries m (entriesOfInput normalized)) []

/-- `mergeAdapt` from the helpers source: no arguments yield `""`, a
single argument is returned normalized (not re-serialized), and two or
more arguments are merged through `styleMap` and re-serialized as
`key:value` pairs joined with `;`. -/
def mergeAdapt (adapts : List AdaptInput) : String :=
  match adapts with
  | [] => ""
  | [a] => normalizeAdapt a
  | _ => joinWith ";" ((mergeMapOf adapts).map (fun kv => kv.1 ++ ":" ++ kv.2))

/-! Regression checks of the alias and merge embeddings against the
repository's unit tests (`aliases.test.ts`, `helpers.test.ts`). -/

example : resolveProperty [] "bg" = "background" := by decide
example : resolveProperty [] "background" = "background" := by decide
example : resolveProperty [] "unknown" = "unknown" := by decide
example : resolveProperty [] "fontSize" = "font-size" := by decide
example : resolveProperty [] "BackgroundColor" = "background-color" := by decide
example : toKebabCase "borderTopLeftRadius" = "border-top-left-radius" := by decide

example : normalizeAdapt (.obj [("bg", "red"), ("color", "white")]) =
    "bg:red; color:white" := by decide
example : normalizeAdapt (.arr [.str "bg:red", .obj [("color", "white")]]) =
    "bg:red; color:white" := by decide

example : mergeAdapt [] = "" := by decide
example : mergeAdapt [.str "bg:red"] = "bg:red" := by decide
example : mergeAdapt [.str "bg:red", .str "bg:blue"] = "bg:red" := by decide
example : mergeAdapt [.str "bg:red", .str "bg:green", .str "bg:blue"] = "bg:red" := by
  decide
example : mergeAdapt [.str "hover:bg:red", .str "hover:bg:blue"] = "hover:bg:red" := by
  decide
example : mergeAdapt [.obj [("bg", "red")], .str "bg:blue"] = "bg:red" := by decide
example : mergeAdapt [.str "bg:white", .str "dark:bg:black"] =
    "dark:bg:black;bg:white" := by decide

/-! ## Claim C6: merge utility lemmas -/

/-- `takeWhile (· ≠ ':')` of a colon-free prefix followed by a colon is
that prefix. -/
theorem takeWhile_ne_colon_append (l1 l2 : List Char) (h : ':' ∉ l1) :
    (l1 ++ ':' :: l2).takeWhile (fun c => c ≠ ':') = l1 := by
  induction l1 with
  | nil => simp [List.takeWhile_cons]
  | cons c cs ih =>
    simp only [List.mem_cons, not_or] at h
    have hc : c ≠ ':' := fun he => h.1 he.symm
    rw [List.cons_append, List.takeWhile_cons_of_pos (by simp [hc]), ih h.2]

/-- The key/value split of the merge utility cuts at the LAST colon:
prepending any key (which may itself contain colons) and a colon to a
colon-free value splits back into exactly that key and value. -/
theorem splitAtLastColon_append (key value : String) (hv : ':' ∉ value.data) :
    splitAtLastColon (key ++ ":" ++ value) = some (key, value) := by
  have hdata : (key ++ ":" ++ value).data = key.data ++ ':' :: value.data := by
    rw [show (key ++ ":" ++ value).data = (key.data ++ [':']) ++ value.data from rfl,
      List.append_assoc]
    rfl
  have hrev : (key ++ ":" ++ value).data.reverse =
      value.data.reverse ++ ':' :: key.data.reverse := by
    rw [hdata]
    simp [List.reverse_append]
  have hvrev : ':' ∉ value.data.reverse := by simpa using hv
  unfold splitAtLastColon
  rw [if_pos (by rw [hdata]; simp)]
  rw [hrev, takeWhile_ne_colon_append _ _ hvrev]
  rw [show value.data.reverse ++ ':' :: key.data.reverse =
      (value.data.reverse ++ [':']) ++ key.data.reverse from by simp]
  rw [List.drop_left' (by simp)]
  simp

/-- Spec-side (for comparison): the value the merge should give key `k`
— scan the normalized inputs left to right, and in the first input that
contains an entry for `k`, take the value of its LAST such entry
(within one input, later pieces overwrite earlier ones). -/
def leftmostValue : List String → String → Option String
  | [], _ => none
  | a :: rest, k =>
    match ((entriesOfInput a).filter (fun kv => kv.1 == k)).getLast? with
    | some kv => some kv.2
    | none => leftmostValue rest k

/-- Association-list access in key order (the first entry wins, as for
a well-formed JS object every key occurs once). -/
def lookupKey (m : List (String × String)) (k : String) : Option String :=
  match m with
  | [] => none
  | p :: rest => if p.1 = k then some p.2 else lookupKey rest k

/-- Updating an existing key in place is invisible to lookups of other
keys. -/
theorem lookup_map_update_ne (m : List (String × String)) (k' v k : String)
    (hk : k ≠ k') :
    lookupKey (m.map (fun p => if p.1 == k' then (k', v) else p)) k =
      lookupKey m k := by
  induction m with
  | nil => rfl
  | cons p rest ih =>
    rw [List.map_cons]
    by_cases hp : p.1 = k'
    · rw [if_pos (by simp [hp])]
      have h1 : ¬k' = k := fun h => hk h.symm
      have h2 : ¬p.1 = k := by rw [hp]; exact h1
      simp only [lookupKey]
      rw [if_neg h1, if_neg h2]
      exact ih
    · rw [if_neg (by simp [hp])]
      simp only [lookupKey]
      by_cases hpk : p.1 = k
      · rw [if_pos hpk, if_pos hpk]
      · rw [if_neg hpk, if_neg hpk]
        exact ih

/-- Looking up the updated key after an in-place update yields the new
value iff the key was present. -/
theorem lookup_map_update_eq (m : List (String × String)) (k' v : String) :
    lookupKey (m.map (fun p => if p.1 == k' then (k', v) else p)) k' =
      if m.any (fun p => p.1 == k') then some v else none := by
  induction m with
  | nil => rfl
  | cons p rest ih =>
    rw [List.map_cons, List.any_cons]
    by_cases hp : p.1 = k'
    · rw [if_pos (by simp [hp]), show (p.1 == k') = true from by simp [hp]]
      simp [lookupKey]
    · rw [if_neg (by simp [hp]), show (p.1 == k') = false from by simp [hp]]
      simp only [lookupKey]
      rw [if_neg hp]
      simpa using ih

/-- Appending a fresh key is visible exactly to that key's lookup. -/
theorem lookupKey_append_not_mem (m : List (String × String)) (k v : String)
    (h : ¬m.any (fun p => p.1 == k) = true) :
    lookupKey (m ++ [(k, v)]) k = some v := by
  induction m with
  | nil => simp [lookupKey]
  | cons p rest ih =>
    simp only [List.any_cons, Bool.or_eq_true, not_or] at h
    have hp : ¬p.1 = k := fun he => h.1 (by simp [he])
    simp only [List.cons_append, lookupKey]
    rw [if_neg hp]
    exact ih (by simpa using h.2)

/-- Appending an entry for another key does not change a lookup. -/
theorem lookupKey_append_ne (m : List (String × String)) (k' v k : String)
    (hk : k ≠ k') :
    lookupKey (m ++ [(k', v)]) k = lookupKey m k := by
  induction m with
  | nil =>
    simp only [List.nil_append, lookupKey]
    rw [if_neg (fun h : k' = k => hk h.symm)]
  | cons p rest ih =>
    simp only [List.cons_append, lookupKey]
    by_cases hpk : p.1 = k
    · rw [if_pos hpk, if_pos hpk]
    · rw [if_neg hpk, if_neg hpk]
      exact ih

/-- JS-object assignment semantics of `jsMapSet`, seen through
`lookupKey`: the written key now yields the new value, all others are
unchanged. -/
theorem lookup_jsMapSet (m : List (String × String)) (k' v k : String) :
    lookupKey (jsMapSet m k' v) k = if k = k' then some v else lookupKey m k := by
  unfold jsMapSet
  by_cases hany : m.any (fun p => p.1 == k') = true
  · rw [if_pos hany]
    by_cases hk : k = k'
    · subst hk
      rw [lookup_map_update_eq, if_pos hany, if_pos rfl]
    · rw [lookup_map_update_ne m k' v k hk, if_neg hk]
  · rw [if_neg hany]
    by_cases hk : k = k'
    · subst hk
      rw [if_pos rfl]
      exact lookupKey_append_not_mem m k v hany
    · rw [if_neg hk]
      exact lookupKey_append_ne m k' v k hk

/-- Storing a run of entries into the style map: the last entry for a
key wins; keys not written keep their previous value. -/
theorem lookup_setEntries (es : List (String × String)) :
    ∀ (m : List (String × String)) (k : String),
      lookupKey (setEntries m es) k =
        match (es.filter (fun kv => kv.1 == k)).getLast? with
        | some kv => some kv.2
        | none => lookupKey m k := by
  induction es with
  | nil => intro m k; rfl
  | cons e rest ih =>
    intro m k
    rw [show setEntries m (e :: rest) = setEntries (jsMapSet m e.1 e.2) rest
      from rfl]
    rw [ih]
    by_cases he : e.1 = k
    · rw [show (e :: rest).filter (fun kv => kv.1 == k) =
          e :: rest.filter (fun kv => kv.1 == k) from by
        simp [List.filter_cons, he]]
      cases hg : (rest.filter (fun kv => kv.1 == k)).getLast? with
      | some kv =>
        obtain ⟨b, l', hl⟩ : ∃ b l',
            rest.filter (fun kv => kv.1 == k) = b :: l' := by
          cases hl : rest.filter (fun kv => kv.1 == k) with
          | nil => rw [hl] at hg; simp at hg
          | cons b l' => exact ⟨b, l', rfl⟩
        rw [hl] at hg ⊢
        rw [List.getLast?_cons_cons, hg]
      | none =>
        have hl : rest.filter (fun kv => kv.1 == k) = [] := by
          simpa [List.getLast?_eq_none_iff] using hg
        rw [hl, lookup_jsMapSet, if_pos he.symm]
        rfl
    · rw [show (e :: rest).filter (fun kv => kv.1 == k) =
          rest.filter (fun kv => kv.1 == k) from by
        simp [List.filter_cons, he]]
      cases hg : (rest.filter (fun kv => kv.1 == k)).getLast? with
      | some kv => rfl
      | none =>
        rw [lookup_jsMapSet, if_neg (fun h : k = e.1 => he h.symm)]

/-- One step of `mergeMapOf`'s right-to-left processing. -/
theorem mergeMapOf_cons (a : AdaptInput) (rest : List AdaptInput) :
    mergeMapOf (a :: rest) =
      if normalizeAdapt a = "" then mergeMapOf rest
      else setEntries (mergeMapOf rest) (entriesOfInput (normalizeAdapt a)) := by
  unfold mergeMapOf
  rw [List.reverse_cons, List.foldl_append]
  rfl

/-- The merged style map realizes leftmost-argument priority: looking
up any key yields the value assigned by the leftmost input that
contains it. -/
theorem mergeMap_leftmost (adapts : List AdaptInput) (k : String) :
    lookupKey (mergeMapOf adapts) k =
      leftmostValue (adapts.map normalizeAdapt) k := by
  induction adapts with
  | nil => rfl
  | cons a rest ih =>
    rw [mergeMapOf_cons, List.map_cons]
    by_cases hn : normalizeAdapt a = ""
    · rw [if_pos hn, ih, hn]
      rfl
    · rw [if_neg hn, lookup_setEntries, ih]
      rfl

end Breakpoint

namespace Breakpoint.Model

/-!
The current (v1.4.x) parser and resolution engine. The repository ships
only a stale pre-1.3 build of `index.js` in `dist/`; the current
`index.ts` — the version with alias resolution inside `parse`
(CHANGELOG 1.3.0), state lists with subset matching (CHANGELOG 1.4.0)
and the `current` state (CHANGELOG 1.4.2) — is missing from `src/`.
The definitions in this namespace model that missing code from the
spec (§3, §4.1, §4.3, §4.4), reusing the surviving constants of
`dist/index.js` and the alias resolver of `dist/aliases.js` where the
spec coincides with them.
-/

/-- Modelled from the spec: the recognized state vocabulary of the
current source (missing from `src/`; spec §3 and CHANGELOG 1.4.2),
which extends the pre-1.4.2 `KNOWN_STATES` of `dist/index.js` with
`current`. -/
def KNOWN_STATES : List String :=
  ["hover", "active", "focus", "visited", "focus-visible", "focus-within",
   "disabled", "enabled", "checked", "current"]

/-- The three classification outcomes of the condition classifier
(spec §4.1). -/
inductive Cat where
  | breakpoint
  | state
  | theme
deriving Repr, DecidableEq

/-- Modelled from the spec: the condition classifier of the current
source (missing from `src/`; spec §4.1): fixed breakpoint vocabulary,
then state vocabulary, then theme vocabulary, then the breakpoint
shape heuristic, else theme. -/
def classify (t : String) : Cat :=
  if KNOWN_BREAKPOINTS.contains t then .breakpoint
  else if KNOWN_STATES.contains t then .state
  else if KNOWN_THEMES.contains t then .theme
  else if bpPattern t then .breakpoint
  else .theme

/-- Condition Set of the current data model (spec §3): at most one
theme and breakpoint, an ordered list of states. -/
structure Conditions where
  theme : Option String := none
  breakpoint : Option String := none
  states : List String := []
deriving Repr, DecidableEq

/-- Modelled from the spec: accumulation of one classified condition
token into the Condition Set (spec §4.3 step 6): a breakpoint or theme
token overwrites its slot, a state token is appended to the state
list. -/
def condStep (c : Conditions) (t : String) : Conditions :=
  match classify t with
  | .breakpoint => { c with breakpoint := some t }
  | .state => { c with states := c.states ++ [t] }
  | .theme => { c with theme := some t }

/-- Declaration of the current data model (spec §3): canonical
(alias-resolved) property, opaque value, Condition Set. -/
structure Declaration where
  property : String
  value : String
  conditions : Conditions
deriving Repr, DecidableEq

/-- Modelled from the spec: the multi-word property scan of the current
parser (spec §4.3 step 4b), testing the alias-resolved join against the
known-property set. -/
def multiWordScan (custom : List (String × String)) (parts : List String) :
    Nat → Option (String × Nat)
  | 0 =>
    let joined := joinWith "-" (parts.take (parts.length - 1))
    if KNOWN_CSS_PROPERTIES.contains (resolveProperty custom joined) then
      some (joined, 0)
    else none
  | i + 1 =>
    let joined := joinWith "-" ((parts.drop (i + 1)).take (parts.length - 1 - (i + 1)))
    if KNOWN_CSS_PROPERTIES.contains (resolveProperty custom joined) then
      some (joined, i + 1)
    else multiWordScan custom parts i

/-- Modelled from the spec: the property/condition boundary detection
of the current parser (spec §4.3 step 4), testing alias-resolved
candidates against the known-property set. Returns the identified raw
property token and the condition parts preceding it. -/
def boundary (custom : List (String × String)) (parts : List String) :
    String × List String :=
  if KNOWN_CSS_PROPERTIES.contains
      (resolveProperty custom (parts.getD (parts.length - 2) "")) then
    (parts.getD (parts.length - 2) "", parts.take (parts.length - 2))
  else if 3 ≤ parts.length then
    match multiWordScan custom parts (parts.length - 3) with
    | some (joined, i) => (joined, parts.take i)
    | none => (parts.getD (parts.length - 2) "", parts.take (parts.length - 2))
  else (parts.getD (parts.length - 2) "", parts.take (parts.length - 2))

/-- Modelled from the spec: processing of one trimmed, nonempty
declaration segment by the current parser (spec §4.3 steps 3-7), with
the custom alias layer passed explicitly. The identified raw property
token is passed through the alias/case resolver before being stored
(spec §4.3 step 5). -/
def parseSegment (custom : List (String × String)) (parts : List String) :
    Option Declaration :=
  if parts.length < 2 then none
  else if (boundary custom parts).1 = "" || parts.getD (parts.length - 1) "" = ""
    then none
  else some { property := resolveProperty custom (boundary custom parts).1,
              value := parts.getD (parts.length - 1) "",
              conditions := (boundary custom parts).2.foldl condStep {} }

/-- Modelled from the spec: the current `parse` (spec §4.3 steps 1-2),
identical segmentation to the surviving `dist/index.js` build. -/
def parse (custom : List (String × String)) (input : String) :
    List Declaration :=
  if input = "" then []
  else
    (((jsSplit ';' input).map jsTrim).filter (fun s => s ≠ "")).filterMap
      (fun declaration => parseSegment custom ((jsSplit ':' declaration).map jsTrim))

/-- Resolution context of the current engine (spec §4.4 / §6):
`states` is a list with default `[]`. -/
structure Context where
  theme : Option String := none
  states : List String := []
  breakpoint : Option String := none
  breakpointStrategy : BreakpointStrategy := .exact
  themeStrategy : ThemeStrategy := .strict
deriving Repr, DecidableEq

/-- Modelled from the spec: state matching of the current engine (spec
§4.4 step 2): every state required by the declaration must be present
in the requested states. -/
def statesMatch (declStates reqStates : List String) : Bool :=
  declStates.all (fun s => reqStates.contains s)

/-- Modelled from the spec: exact theme match existence for the
fallback rule (spec §4.4 step 4, first bullet): same property, the
requested theme, and the same breakpoint and state conditions. -/
def hasExactThemeMatch (all : List Declaration) (d : Declaration)
    (ctx : Context) : Bool :=
  all.any fun s =>
    s.property == d.property &&
    s.conditions.theme == ctx.theme &&
    s.conditions.breakpoint == d.conditions.breakpoint &&
    s.conditions.states == d.conditions.states

/-- Modelled from the spec: themeless base declaration at the same
breakpoint/state level (spec §4.4 step 4, second bullet). -/
def hasBaseAtSameLevel (all : List Declaration) (d : Declaration) : Bool :=
  all.any fun s =>
    s.property == d.property &&
    s.conditions.theme == none &&
    s.conditions.breakpoint == d.conditions.breakpoint &&
    s.conditions.states == d.conditions.states

/-- Modelled from the spec: the fallback-skipping rule (spec §4.4 step
4): a cross-theme declaration is skipped if an exact requested-theme
match exists, or if a themeless base exists at the same level while the
context requests a state or a breakpoint that this declaration's
conditions lack. -/
def skipFallback (all : List Declaration) (d : Declaration)
    (ctx : Context) : Bool :=
  hasExactThemeMatch all d ctx ||
  (hasBaseAtSameLevel all d &&
    (ctx.states.any (fun s => !(d.conditions.states.contains s)) ||
     (ctx.breakpoint.isSome && d.conditions.breakpoint.isNone)))

/-- Modelled from the spec: theme matching of the current engine (spec
§4.4 step 4). -/
def themeOk (all : List Declaration) (d : Declaration) (ctx : Context) :
    Bool :=
  match d.conditions.theme with
  | none => true
  | some t =>
    match ctx.themeStrategy with
    | .strict => ctx.theme == some t
    | .fallback =>
      match ctx.theme with
      | some reqT => if t ≠ reqT then !(skipFallback all d ctx) else true
      | none => false

/-- Modelled from the spec: the per-declaration matching rule of the
current engine (spec §4.4 steps 1-4); base declarations always match,
and breakpoint matching is the strategy table shared with
`dist/index.js`. -/
def declMatches (all : List Declaration) (d : Declaration) (ctx : Context) :
    Bool :=
  if d.conditions.theme.isNone && d.conditions.breakpoint.isNone &&
      d.conditions.states.isEmpty then true
  else
    themeOk all d ctx &&
    statesMatch d.conditions.states ctx.states &&
    bpSectionOk d.conditions.breakpoint ctx.breakpoint ctx.breakpointStrategy

/-- Modelled from the spec: the current `resolve` (spec §4.4): filter by
`declMatches`, merge per property with last-match-wins, serialize as
`"prop: value;"` entries joined by single spaces. -/
def resolve (styles : List Declaration) (ctx : Context) : String :=
  let matching :=
    (styles.filter (fun d => declMatches styles d ctx)).map
      (fun d => (d.property, d.value))
  joinWith " " ((buildPropertyMap matching).map
    (fun pv => pv.1 ++ ": " ++ pv.2 ++ ";"))

/-! Cross-validation of the modelled current engine against the
repository's own CHANGELOG examples (1.4.0 and 1.4.2). -/

example : parse [] "hover:active:bg:red" =
    [{ property := "background", value := "red",
       conditions := { states := ["hover", "active"] } }] := by decide

example : resolve (parse [] "hover:active:bg:red") { states := ["hover", "active"] } =
    "background: red;" := by decide

example : resolve (parse [] "hover:active:bg:red") { states := ["hover"] } = "" := by
  decide

example : resolve (parse [] "pl:20px; hover:bg:gray; current:bg:blue; current:font-weight:600")
    { states := ["current"] } =
    "padding-left: 20px; background: blue; font-weight: 600;" := by decide

example : resolve (parse [] "current:bg:blue; current:dark:bg:darkblue")
    { theme := some "dark", states := ["current"] } = "background: darkblue;" := by
  decide

example : (parse [] "fontSize:16px") =
    [{ property := "font-size", value := "16px", conditions := {} }] := by decide

end Breakpoint.Model

namespace Breakpoint

/-! ## Claim C8 -/

/-- Claim C8: every token of the recognized state vocabulary — hover,
active, focus, visited, focus-visible, focus-within, disabled, enabled,
checked, and current — is classified by the condition classifier as a
state, and populates the state slot (the state list) of the Condition
Set, leaving the theme and breakpoint slots untouched. -/
theorem C8_state_vocabulary :
    Model.KNOWN_STATES =
      ["hover", "active", "focus", "visited", "focus-visible", "focus-within",
       "disabled", "enabled", "checked", "current"] ∧
    ∀ t ∈ Model.KNOWN_STATES, Model.classify t = Model.Cat.state ∧
      ∀ c : Model.Conditions,
        (Model.condStep c t).states = c.states ++ [t] ∧
        (Model.condStep c t).theme = c.theme ∧
        (Model.condStep c t).breakpoint = c.breakpoint := by
  refine ⟨rfl, ?_⟩
  intro t ht
  have hcl : Model.classify t = Model.Cat.state := by fin_cases ht <;> decide
  refine ⟨hcl, ?_⟩
  intro c
  simp [Model.condStep, hcl]

/-- Witness for C8 at the token `current`. -/
theorem C8_state_vocabulary_witness :
    Model.classify "current" = Model.Cat.state ∧
    (Model.condStep {} "current").states = ([] : List String) ++ ["current"] := by
  have h := C8_state_vocabulary.2 "current" (by decide)
  exact ⟨h.1, (h.2 {}).1⟩

/-! ## Claim C1 -/

/-- Claim C1: state matching in the resolution engine is a subset
check — a declaration matches on states iff every state in its
condition set is present in the requested states; in particular
`resolve (parse "hover:active:bg:red")` yields `""` for requested
states `["hover"]` and `"background: red;"` for `["hover","active"]`
and any superset such as `["hover","active","focus"]`. -/
theorem C1_states_subset :
    (∀ ds rs : List String, Model.statesMatch ds rs = true ↔ ∀ s ∈ ds, s ∈ rs) ∧
    Model.resolve (Model.parse [] "hover:active:bg:red")
      { states := ["hover"] } = "" ∧
    Model.resolve (Model.parse [] "hover:active:bg:red")
      { states := ["hover", "active"] } = "background: red;" ∧
    Model.resolve (Model.parse [] "hover:active:bg:red")
      { states := ["hover", "active", "focus"] } = "background: red;" := by
  refine ⟨?_, by decide, by decide, by decide⟩
  intro ds rs
  simp [Model.statesMatch, List.all_eq_true]

/-- Witness for C1's subset characterization at concrete state lists. -/
theorem C1_states_subset_witness :
    Model.statesMatch ["hover", "active"] ["hover", "active", "focus"] = true ↔
      ∀ s ∈ ["hover", "active"], s ∈ ["hover", "active", "focus"] :=
  C1_states_subset.1 ["hover", "active"] ["hover", "active", "focus"]

/-! ## Claim C2 -/

/-- Claim C2: `parse` resolves the identified raw property token through
the alias resolver before storing it: with the custom alias `bg →
background-color` registered, `parse "bg:red"` yields the property
`background-color`; with the custom layer cleared the same input
reverts to the built-in mapping `background`. Moreover every parsed
declaration's property is the alias-resolved image of some raw token. -/
theorem C2_parse_alias_resolution :
    Model.parse (registerAlias clearCustomAliases "bg" "background-color") "bg:red" =
      [{ property := "background-color", value := "red", conditions := {} }] ∧
    Model.parse clearCustomAliases "bg:red" =
      [{ property := "background", value := "red", conditions := {} }] ∧
    ∀ (custom : List (String × String)) (input : String),
      ∀ d ∈ Model.parse custom input,
        ∃ raw, d.property = resolveProperty custom raw := by
  refine ⟨by decide, by decide, ?_⟩
  intro custom input d hd
  unfold Model.parse at hd
  split at hd
  · simp at hd
  · simp only [List.mem_filterMap] at hd
    obtain ⟨seg, -, hseg⟩ := hd
    unfold Model.parseSegment at hseg
    split at hseg
    · exact absurd hseg (by simp)
    · split at hseg
      · exact absurd hseg (by simp)
      · rw [Option.some.injEq] at hseg
        exact ⟨_, by rw [← hseg]⟩


/-- Witness for C2's universal part at a concrete parse. -/
theorem C2_parse_alias_resolution_witness :
    ∃ raw,
      (Model.Declaration.mk "background-color" "red" {}).property =
        resolveProperty [("bg", "background-color")] raw :=
  C2_parse_alias_resolution.2.2 [("bg", "background-color")] "bg:red"
    { property := "background-color", value := "red", conditions := {} } (by decide)

/-! ## Claim C3 -/

/-- Claim C3: breakpoint matching in `getStyle` follows the strategy
table — no declaration breakpoint matches anything; a declaration
breakpoint with no requested breakpoint never matches; with both
ordinals known, `exact` matches iff the names are equal, `mobile-first`
iff the declaration ordinal is at most the requested ordinal,
`desktop-first` iff it is at least the requested ordinal; and with
either ordinal unknown, matching requires exact string equality
regardless of strategy. -/
theorem C3_breakpoint_strategy_table :
    (∀ (rbp : Option String) (strat : BreakpointStrategy),
        bpSectionOk none rbp strat = true) ∧
    (∀ (cb : String) (strat : BreakpointStrategy),
        bpSectionOk (some cb) none strat = false) ∧
    (∀ (cb rb : String) (ci ri : Nat),
        BREAKPOINT_ORDER.lookup cb = some ci →
        BREAKPOINT_ORDER.lookup rb = some ri →
        (bpSectionOk (some cb) (some rb) .exact = true ↔ cb = rb) ∧
        (bpSectionOk (some cb) (some rb) .mobileFirst = true ↔ ci ≤ ri) ∧
        (bpSectionOk (some cb) (some rb) .desktopFirst = true ↔ ri ≤ ci)) ∧
    (∀ (cb rb : String) (strat : BreakpointStrategy),
        BREAKPOINT_ORDER.lookup cb = none ∨ BREAKPOINT_ORDER.lookup rb = none →
        (bpSectionOk (some cb) (some rb) strat = true ↔ cb = rb)) := by
  refine ⟨?_, ?_, ?_, ?_⟩
  · intro rbp strat; cases rbp <;> rfl
  · intro cb strat; rfl
  · intro cb rb ci ri hci hri
    refine ⟨?_, ?_, ?_⟩ <;> simp [bpSectionOk, hci, hri]
  · intro cb rb strat h
    rcases h with h | h
    · cases hrb : BREAKPOINT_ORDER.lookup rb <;> simp [bpSectionOk, h, hrb]
    · cases hcb : BREAKPOINT_ORDER.lookup cb <;> simp [bpSectionOk, h, hcb]

/-- Witness for C3 at concrete breakpoints: `sm` against `md` under the
three strategies (ordinals 1 and 2), and the custom pair `3xl`/`3xl`. -/
theorem C3_breakpoint_strategy_table_witness :
    (bpSectionOk (some "sm") (some "md") .exact = true ↔ "sm" = "md") ∧
    (bpSectionOk (some "sm") (some "md") .mobileFirst = true ↔ 1 ≤ 2) ∧
    (bpSectionOk (some "sm") (some "md") .desktopFirst = true ↔ 2 ≤ 1) ∧
    (bpSectionOk (some "3xl") (some "3xl") .mobileFirst = true ↔ "3xl" = "3xl") ∧
    bpSectionOk none (some "md") .exact = true ∧
    bpSectionOk (some "md") none .exact = false := by
  have h3 := C3_breakpoint_strategy_table.2.2.1 "sm" "md" 1 2 (by decide) (by decide)
  have h4 := C3_breakpoint_strategy_table.2.2.2 "3xl" "3xl" .mobileFirst
    (Or.inl (by decide))
  exact ⟨h3.1, h3.2.1, h3.2.2, h4,
    C3_breakpoint_strategy_table.1 (some "md") .exact,
    C3_breakpoint_strategy_table.2.1 "md" .exact⟩

/-! ## Claims C9 and C10: totality and well-formedness of `parse` -/

/-- Segments whose colon-split yields fewer than two parts are dropped
by `parseSegment`. -/
theorem parseSegment_none_of_short (parts : List String)
    (h : parts.length < 2) : parseSegment parts = none := by
  unfold parseSegment
  rw [if_pos h]

/-- A successfully parsed segment has a nonempty property and value. -/
theorem parseSegment_some_nonempty (parts : List String) (d : ParsedStyle)
    (h : parseSegment parts = some d) : d.property ≠ "" ∧ d.value ≠ "" := by
  unfold parseSegment at h
  split at h
  · exact absurd h (by simp)
  · split at h
    · exact absurd h (by simp)
    · rw [Option.some.injEq] at h
      rename_i hguard
      rw [Bool.or_eq_true, decide_eq_true_iff, decide_eq_true_iff] at hguard
      push_neg at hguard
      rw [← h]
      exact hguard

/-- Inserting a filter that a `filterMap` function already sends to
`none` does not change the result. -/
theorem filterMap_filter_none {α β : Type} (f : α → Option β) (p : α → Bool)
    (h : ∀ a, p a = false → f a = none) :
    ∀ l : List α, l.filterMap f = (l.filter p).filterMap f := by
  intro l
  induction l with
  | nil => rfl
  | cons a t ih =>
    by_cases hp : p a = true
    · simp only [List.filter_cons, hp, if_true, List.filterMap_cons, ih]
    · have ha : f a = none := h a (by simpa using hp)
      simp only [List.filter_cons, hp, if_false, List.filterMap_cons, ha, ih,
        Bool.false_eq_true]

/-- Claim C9: `parse` is total and never throws — `null`/`undefined`
and the empty string give an empty `ParsedStyles`; segments that trim
to empty or split into fewer than two colon-separated parts are
silently dropped (inserting that filter explicitly does not change the
result); and `getStyle (parse "") {}` is the empty string. -/
theorem C9_parse_totality :
    parseOpt none = { styles := [] } ∧
    parse "" = { styles := [] } ∧
    (∀ parts : List String, parts.length < 2 → parseSegment parts = none) ∧
    (∀ input : String, (parse input).styles =
      ((((jsSplit ';' input).map jsTrim).filter (fun s => s ≠ "")).filter
          (fun s => 2 ≤ ((jsSplit ':' s).map jsTrim).length)).filterMap
        (fun declaration => parseSegment ((jsSplit ':' declaration).map jsTrim))) ∧
    getStyle (parse "") {} = "" := by
  refine ⟨rfl, rfl, parseSegment_none_of_short, ?_, rfl⟩
  intro input
  by_cases hin : input = ""
  · subst hin; decide
  · unfold parse
    rw [if_neg hin]
    exact filterMap_filter_none _ _
      (fun a ha => parseSegment_none_of_short _ (by simpa using ha)) _

/-- Witness for C9 at concrete inputs. -/
theorem C9_parse_totality_witness :
    parseSegment ["color"] = none ∧
    (parse "invalid; color:red").styles =
      (((((jsSplit ';' "invalid; color:red").map jsTrim).filter
            (fun s => s ≠ "")).filter
          (fun s => 2 ≤ ((jsSplit ':' s).map jsTrim).length)).filterMap
        (fun declaration => parseSegment ((jsSplit ':' declaration).map jsTrim))) :=
  ⟨C9_parse_totality.2.2.1 ["color"] (by decide),
   C9_parse_totality.2.2.2.1 "invalid; color:red"⟩

/-- Claim C10: every declaration produced by `parse` has a nonempty
property and a nonempty value — candidate declarations whose property
or value is empty are dropped. -/
theorem C10_nonempty_property_value :
    ∀ (input : String), ∀ d ∈ (parse input).styles,
      d.property ≠ "" ∧ d.value ≠ "" := by
  intro input d hd
  unfold parse at hd
  split at hd
  · simp at hd
  · simp only [List.mem_filterMap] at hd
    obtain ⟨seg, -, hseg⟩ := hd
    exact parseSegment_some_nonempty _ _ hseg

/-- Witness for C10: the declaration parsed from `"a::b"` would have an
empty property and is indeed dropped, while `"color:red"` yields a
nonempty property and value. -/
theorem C10_nonempty_property_value_witness :
    (parse "a::b").styles = [] ∧
    ({ property := "color", value := "red", conditions := {} } : ParsedStyle).property ≠ "" ∧
    ({ property := "color", value := "red", conditions := {} } : ParsedStyle).value ≠ "" :=
  ⟨by decide,
   C10_nonempty_property_value "color:red"
     { property := "color", value := "red", conditions := {} } (by decide)⟩

/-! ## Claim C6 -/

/-- Claim C6: `mergeAdapt` splits each semicolon-separated piece at its
LAST colon to separate the full condition+property prefix (the key)
from the value, so keys containing colons (like `hover:dark:bg`) stay
distinct from shorter ones (like `hover:bg`); for any key the leftmost
input argument's value wins; and the result is re-serialized as
`key:value` pairs joined with `;`, with no trailing semicolon and no
space after the colon. -/
theorem C6_merge_last_colon_leftmost :
    (∀ key value : String, ':' ∉ value.data →
        splitAtLastColon (key ++ ":" ++ value) = some (key, value)) ∧
    mergeAdapt [.str "hover:bg:white", .str "hover:dark:bg:black"] =
      "hover:dark:bg:black;hover:bg:white" ∧
    (∀ (adapts : List AdaptInput) (k : String),
        lookupKey (mergeMapOf adapts) k =
          leftmostValue (adapts.map normalizeAdapt) k) ∧
    (∀ (a b : AdaptInput) (rest : List AdaptInput),
        mergeAdapt (a :: b :: rest) =
          joinWith ";" ((mergeMapOf (a :: b :: rest)).map
            (fun kv => kv.1 ++ ":" ++ kv.2))) :=
  ⟨splitAtLastColon_append, by decide, mergeMap_leftmost,
   fun _ _ _ => rfl⟩

/-- Witness for C6's universal parts at the claim's own example. -/
theorem C6_merge_last_colon_leftmost_witness :
    splitAtLastColon ("hover:dark:bg" ++ ":" ++ "black") =
      some ("hover:dark:bg", "black") ∧
    lookupKey (mergeMapOf [.str "hover:bg:white", .str "hover:dark:bg:black"])
        "hover:bg" =
      leftmostValue ([AdaptInput.str "hover:bg:white",
        AdaptInput.str "hover:dark:bg:black"].map normalizeAdapt) "hover:bg" ∧
    mergeAdapt [.str "hover:bg:white", .str "bg:red", .str "x:y"] =
      joinWith ";"
        ((mergeMapOf [.str "hover:bg:white", .str "bg:red", .str "x:y"]).map
          (fun kv => kv.1 ++ ":" ++ kv.2)) :=
  ⟨C6_merge_last_colon_leftmost.1 "hover:dark:bg" "black" (by decide),
   C6_merge_last_colon_leftmost.2.2.1 _ "hover:bg",
   C6_merge_last_colon_leftmost.2.2.2 _ _ _⟩

/-! ## Claim C7: condition-token order invariance -/

/-- The classification category implicitly chosen by the if-chain of
`categorize` (the slot of the Condition Set the token is written to). -/
def catOf (t : String) : Model.Cat :=
  if KNOWN_BREAKPOINTS.contains t then .breakpoint
  else if KNOWN_STATES.contains t then .state
  else if KNOWN_THEMES.contains t then .theme
  else if bpPattern t then .breakpoint
  else .theme

/-- A token classified as a breakpoint writes the breakpoint slot. -/
theorem categorize_eq_of_breakpoint (c : StyleConditions) (t : String)
    (h : catOf t = .breakpoint) :
    categorize c t = { c with breakpoint := some t } := by
  unfold catOf at h
  unfold categorize
  split_ifs at h ⊢ <;> simp_all

/-- A token classified as a state writes the state slot. -/
theorem categorize_eq_of_state (c : StyleConditions) (t : String)
    (h : catOf t = .state) :
    categorize c t = { c with state := some t } := by
  unfold catOf at h
  unfold categorize
  split_ifs at h ⊢
  simp_all

/-- A token classified as a theme writes the theme slot. -/
theorem categorize_eq_of_theme (c : StyleConditions) (t : String)
    (h : catOf t = .theme) :
    categorize c t = { c with theme := some t } := by
  unfold catOf at h
  unfold categorize
  split_ifs at h ⊢ <;> simp_all

/-- Counterexample to claim C7 as stated: permuting the condition
tokens of a declaration is NOT always invariant — two tokens that
classify to the same slot leave the later one in the slot, so the two
permutations of `dark` and `light` produce different Condition Sets. -/
theorem C7_order_invariance_counterexample :
    parse "dark:light:color:red" ≠ parse "light:dark:color:red" := by decide

/-- Claim C7 (amended): condition-token order invariance holds when the
condition tokens classify to pairwise distinct slots — for a theme
token, a breakpoint token and a state token, all six orders produce the
same Condition Set. -/
theorem C7_order_invariance_amended (t b s : String)
    (ht : catOf t = .theme) (hb : catOf b = .breakpoint)
    (hs : catOf s = .state) :
    ∀ l ∈ [[t, b, s], [t, s, b], [b, t, s], [b, s, t], [s, t, b], [s, b, t]],
      l.foldl categorize {} =
        { theme := some t, breakpoint := some b, state := some s } := by
  intro l hl
  fin_cases hl <;>
    simp [List.foldl_cons, List.foldl_nil, categorize_eq_of_theme _ _ ht,
      categorize_eq_of_breakpoint _ _ hb, categorize_eq_of_state _ _ hs]

/-- Witness for the amended C7 at `dark` / `md` / `hover`, for two
opposite token orders. -/
theorem C7_order_invariance_amended_witness :
    ["dark", "md", "hover"].foldl categorize {} =
      { theme := some "dark", breakpoint := some "md", state := some "hover" } ∧
    ["hover", "md", "dark"].foldl categorize {} =
      { theme := some "dark", breakpoint := some "md", state := some "hover" } :=
  ⟨C7_order_invariance_amended "dark" "md" "hover" (by decide) (by decide)
     (by decide) ["dark", "md", "hover"] (by decide),
   C7_order_invariance_amended "dark" "md" "hover" (by decide) (by decide)
     (by decide) ["hover", "md", "dark"] (by decide)⟩

example : parse "dark:md:hover:color:red" = parse "hover:md:dark:color:red" := by
  decide

/-! ## Claim C4: theme fallback skipping -/

/-- The skip condition exactly as claim C4 states it: an exact
requested-theme match at the same level exists, or a themeless base
declaration exists at the same breakpoint/state level while the context
requests a state or a breakpoint that this declaration's conditions
lack. (Stated for comparison with the code's `skipFallback`.) -/
def claimSkipCondition (all : List ParsedStyle) (style : ParsedStyle)
    (o : GetStyleOptions) : Bool :=
  hasExactThemeMatch all style o ||
  (hasBaseAtSameLevel all style &&
    ((o.state.isSome && style.conditions.state.isNone) ||
     (o.breakpoint.isSome && style.conditions.breakpoint.isNone)))

/-- Counterexample to claim C4 as stated: for
`parse "dark:color:white; lg:color:green"` resolved with theme `light`,
breakpoint `md` and the `fallback` strategy, the claim's skip condition
is false (the only themeless declaration sits at breakpoint `lg`, not
at the fallback declaration's own — empty — breakpoint/state level),
and the declaration's state and breakpoint sections both match, so by
the claim the cross-theme declaration should match and the output
should be `"color: white;"` — but the code skips it (its `hasAnyBase`
check ignores the breakpoint level) and returns `""`. -/
theorem C4_theme_fallback_counterexample :
    getStyle (parse "dark:color:white; lg:color:green")
      { theme := some "light", breakpoint := some "md",
        themeStrategy := .fallback } = "" ∧
    claimSkipCondition (parse "dark:color:white; lg:color:green").styles
      { property := "color", value := "white",
        conditions := { theme := some "dark" } }
      { theme := some "light", breakpoint := some "md",
        themeStrategy := .fallback } = false ∧
    stateSectionOk none none = true ∧
    bpSectionOk none (some "md") .exact = true := by decide

/-- Characterization of the code's `skipFallback` as a disjunction,
exposing the branch order of the `else if` chain. -/
theorem skipFallback_iff (all : List ParsedStyle) (style : ParsedStyle)
    (o : GetStyleOptions) :
    skipFallback all style o = true ↔
      (hasExactThemeMatch all style o = true ∨
       (o.state.isSome = true ∧ style.conditions.state = none ∧
         hasBaseAtSameLevel all style = true) ∨
       (¬(o.state.isSome = true ∧ style.conditions.state = none) ∧
         o.breakpoint.isSome = true ∧ style.conditions.breakpoint = none ∧
         hasAnyBase all style = true)) := by
  unfold skipFallback
  by_cases hex : hasExactThemeMatch all style o = true <;>
  by_cases hs1 : o.state.isSome = true <;>
  by_cases hs2 : style.conditions.state.isNone = true <;>
  by_cases hb1 : o.breakpoint.isSome = true <;>
  by_cases hb2 : style.conditions.breakpoint.isNone = true <;>
    simp_all [Option.isNone_iff_eq_none]

/-- Claim C4 (amended): under the `fallback` strategy a cross-theme
declaration is skipped iff an exact requested-theme match exists for
the same property at the same breakpoint/state level; or a state is
requested while the declaration has no state condition and a themeless
declaration with the same property, the same breakpoint and no state
exists; or — only when the previous case does not fire — a breakpoint
is requested while the declaration has no breakpoint condition and a
themeless declaration with the same property and the same state exists
at ANY breakpoint level; and a themed declaration never matches when no
theme is requested. -/
theorem C4_theme_fallback_amended :
    (∀ (all : List ParsedStyle) (style : ParsedStyle) (o : GetStyleOptions)
        (t reqT : String),
      style.conditions.theme = some t → o.theme = some reqT → t ≠ reqT →
      o.themeStrategy = .fallback →
      (themeSectionOk all style o = true ↔
        ¬(hasExactThemeMatch all style o = true ∨
          (o.state.isSome = true ∧ style.conditions.state = none ∧
            hasBaseAtSameLevel all style = true) ∨
          (¬(o.state.isSome = true ∧ style.conditions.state = none) ∧
            o.breakpoint.isSome = true ∧ style.conditions.breakpoint = none ∧
            hasAnyBase all style = true)))) ∧
    (∀ (all : List ParsedStyle) (style : ParsedStyle) (o : GetStyleOptions)
        (t : String),
      style.conditions.theme = some t → o.theme = none →
      o.themeStrategy = .fallback → themeSectionOk all style o = false) := by
  constructor
  · intro all style o t reqT h1 h2 h3 h4
    simp only [themeSectionOk, h1, h2, h4]
    rw [if_pos h3, Bool.not_eq_true', Bool.eq_false_iff]
    exact not_congr (skipFallback_iff all style o)
  · intro all style o t h1 h2 h3
    simp only [themeSectionOk, h1, h2, h3]

/-! ## Claim C5: last-write-wins and serialization -/

/-- Spec-side (for comparison): the distinct properties of a matched
list in the order each property was first encountered. -/
def firstKeys (l : List (String × String)) : List String :=
  l.foldl (fun acc pv => if acc.contains pv.1 then acc else acc ++ [pv.1]) []

/-- Spec-side (for comparison): the value supplied by the LAST entry of
`l` carrying property `p` (last-write-wins). -/
def lastValueFor (l : List (String × String)) (p : String) : String :=
  ((l.filter (fun pv => pv.1 == p)).map Prod.snd).getLastD ""

/-- `firstKeys` over a snoc: a known property changes nothing, a new
property is appended. -/
theorem firstKeys_append (l : List (String × String)) (x : String × String) :
    firstKeys (l ++ [x]) =
      if (firstKeys l).contains x.1 then firstKeys l
      else firstKeys l ++ [x.1] := by
  simp [firstKeys, List.foldl_append]

/-- `lastValueFor` over a snoc: the appended entry wins for its own
property and is invisible to others. -/
theorem lastValueFor_append (l : List (String × String)) (x : String × String)
    (p : String) :
    lastValueFor (l ++ [x]) p = if x.1 = p then x.2 else lastValueFor l p := by
  unfold lastValueFor
  rw [List.filter_append]
  by_cases hp : x.1 = p
  · simp [hp, List.getLastD_concat]
  · simp [hp]

/-- `buildPropertyMap` over a snoc is one `jsMapSet` step. -/
theorem buildPropertyMap_append (l : List (String × String))
    (x : String × String) :
    buildPropertyMap (l ++ [x]) = jsMapSet (buildPropertyMap l) x.1 x.2 := by
  simp [buildPropertyMap, List.foldl_append]

/-- The `propertyMap` of `getStyle` is exactly: the properties in
first-encounter order, each paired with the value of its last
occurrence. -/
theorem buildPropertyMap_eq (l : List (String × String)) :
    buildPropertyMap l = (firstKeys l).map (fun p => (p, lastValueFor l p)) := by
  induction l using List.reverseRecOn with
  | nil => rfl
  | append_singleton l x ih =>
    rw [buildPropertyMap_append, firstKeys_append, ih]
    by_cases hc : x.1 ∈ firstKeys l
    · rw [if_pos (List.elem_iff.2 hc)]
      unfold jsMapSet
      rw [if_pos (by
        simp only [List.any_eq_true, beq_iff_eq]
        exact ⟨(x.1, lastValueFor l x.1), List.mem_map_of_mem _ hc, rfl⟩)]
      rw [List.map_map]
      refine List.map_congr_left ?_
      intro p hp
      simp only [Function.comp_apply]
      by_cases hpx : p = x.1
      · subst hpx
        simp [lastValueFor_append]
      · have hx : ¬x.1 = p := fun h => hpx h.symm
        simp [lastValueFor_append, hpx, hx]
    · rw [if_neg (fun h => hc (List.elem_iff.1 h))]
      unfold jsMapSet
      rw [if_neg (by
        simp only [List.any_eq_true, beq_iff_eq]
        rintro ⟨q, hq, hqe⟩
        obtain ⟨p, hp, rfl⟩ := List.mem_map.1 hq
        exact hc (hqe ▸ hp))]
      rw [List.map_append]
      refine congrArg₂ (· ++ ·) ?_ ?_
      · refine List.map_congr_left ?_
        intro p hp
        rw [lastValueFor_append,
          if_neg (fun (h : x.1 = p) => hc (by rw [h]; exact hp))]
      · rw [List.map_singleton, lastValueFor_append, if_pos rfl]

/-- Claim C5: among matched declarations `getStyle` applies
last-write-wins per canonical property — the last-matching declaration
in original parse order supplies the value — and serializes the winners
as `"prop: value;"` entries joined by single spaces, preserving the
order in which each property was first encountered among the matches. -/
theorem C5_last_write_wins :
    ∀ (ps : ParsedStyles) (o : GetStyleOptions),
      getStyle ps o =
        joinWith " " ((firstKeys (matchingStyles ps o)).map
          (fun p => p ++ ": " ++ lastValueFor (matchingStyles ps o) p ++ ";")) := by
  intro ps o
  unfold getStyle
  rw [buildPropertyMap_eq, List.map_map]
  rfl

/-- Witness for C5 at a concrete style string with a property
collision. -/
theorem C5_last_write_wins_witness :
    getStyle (parse "color:red; margin:0; color:blue") {} =
      joinWith " "
        ((firstKeys (matchingStyles (parse "color:red; margin:0; color:blue") {})).map
          (fun p =>
            p ++ ": " ++
              lastValueFor (matchingStyles (parse "color:red; margin:0; color:blue") {}) p
              ++ ";")) :=
  C5_last_write_wins (parse "color:red; margin:0; color:blue") {}

example : getStyle (parse "color:red; margin:0; color:blue") {} =
    "color: blue; margin: 0;" := by decide

/-- Witness for the amended C4 at the counterexample instance. -/
theorem C4_theme_fallback_amended_witness :
    (themeSectionOk [⟨"color", "white", ⟨some "dark", none, none⟩⟩]
        ⟨"color", "white", ⟨some "dark", none, none⟩⟩
        { theme := some "light", themeStrategy := .fallback } = true ↔
      ¬(hasExactThemeMatch [⟨"color", "white", ⟨some "dark", none, none⟩⟩]
          ⟨"color", "white", ⟨some "dark", none, none⟩⟩
          { theme := some "light", themeStrategy := .fallback } = true ∨
        ((({ theme := some "light", themeStrategy := .fallback } :
            GetStyleOptions).state.isSome = true) ∧
          (⟨some "dark", none, none⟩ : StyleConditions).state = none ∧
          hasBaseAtSameLevel [⟨"color", "white", ⟨some "dark", none, none⟩⟩]
            ⟨"color", "white", ⟨some "dark", none, none⟩⟩ = true) ∨
        (¬((({ theme := some "light", themeStrategy := .fallback } :
              GetStyleOptions).state.isSome = true) ∧
            (⟨some "dark", none, none⟩ : StyleConditions).state = none) ∧
          (({ theme := some "light", themeStrategy := .fallback } :
            GetStyleOptions).breakpoint.isSome = true) ∧
          (⟨some "dark", none, none⟩ : StyleConditions).breakpoint = none ∧
          hasAnyBase [⟨"color", "white", ⟨some "dark", none, none⟩⟩]
            ⟨"color", "white", ⟨some "dark", none, none⟩⟩ = true))) ∧
    themeSectionOk [⟨"color", "white", ⟨some "dark", none, none⟩⟩]
      ⟨"color", "white", ⟨some "dark", none, none⟩⟩
      { themeStrategy := .fallback } = false :=
  ⟨C4_theme_fallback_amended.1 _ _ _ "dark" "light" rfl rfl (by decide) rfl,
   C4_theme_fallback_amended.2 _ _ _ "dark" rfl rfl rfl⟩

end Breakpoint

/-! Regression checks of the parser embedding against the repository's
own unit tests (`index.test.ts`). -/

example : (Breakpoint.parse "color:red").styles =
    [{ property := "color", value := "red", conditions := {} }] := by decide

example : (Breakpoint.parse "dark:color:white").styles =
    [{ property := "color", value := "white", conditions := { theme := some "dark" } }] := by
  decide

example : (Breakpoint.parse "md:padding:20px; hover:dark:background:black").styles =
    [{ property := "padding", value := "20px", conditions := { breakpoint := some "md" } },
     { property := "background", value := "black",
       conditions := { theme := some "dark", state := some "hover" } }] := by decide

example : (Breakpoint.parse "font:family:serif").styles =
    [{ property := "font-family", value := "serif", conditions := {} }] := by decide

example : (Breakpoint.parse "").styles = [] := by decide

example : (Breakpoint.parse "invalid").styles = [] := by decide
